import Mathlib

-- Verification of the pluto placeholder extraction / templating engine and the
-- conversation-driven fill state machine.  Texts are modelled as `List Char`;
-- Python regex substitution over the two marker grammars of
-- `app/services/document_service.py` is modelled by explicit scanners.  The
-- scanners recurse on a fuel argument (initialised to the text length, which is
-- always sufficient) so that all definitions reduce inside the kernel.

set_option maxRecDepth 8000

-- ## Basic text utilities

/-- Python `s.lower()` restricted to ASCII letters (marker bodies only contain
ASCII letters, digits, spaces and hyphens). -/
def pyLowerChar (c : Char) : Char :=
  if 'A' ≤ c ∧ c ≤ 'Z' then Char.ofNat (c.toNat + 32) else c

/-- Python whitespace test used by `str.strip` on the characters that can occur
in a bracket body (space only, but we keep the usual ASCII whitespace set). -/
def pyIsSpace (c : Char) : Bool :=
  c == ' ' || c == '\t' || c == '\n' || c == '\r' || c == '\x0b' || c == '\x0c'

/-- Python `s.strip()`: drop whitespace from both ends. -/
def pyStrip (cs : List Char) : List Char :=
  ((cs.dropWhile pyIsSpace).reverse.dropWhile pyIsSpace).reverse

/-- Python slice `s[a:b]` for clamped nonnegative bounds. -/
def pySlice (cs : List Char) (a b : Nat) : List Char :=
  (cs.take b).drop a

/-- Boolean prefix test on character lists. -/
def isPrefixOfB : List Char → List Char → Bool
  | [], _ => true
  | _ :: _, [] => false
  | a :: as, b :: bs => a == b && isPrefixOfB as bs

/-- Python `needle in haystack` substring containment. -/
def containsSub (needle : List Char) : List Char → Bool
  | [] => isPrefixOfB needle []
  | c :: rest => isPrefixOfB needle (c :: rest) || containsSub needle rest

-- ## Marker grammars (document_service.py lines 115-116)

/-- Characters allowed in a bracket-marker body: `[A-Za-z0-9 \-]`. -/
def isBracketBodyChar (c : Char) : Bool :=
  c.isAlpha || c.isDigit || c == ' ' || c == '-'

/-- Try to match the bracket pattern `\[([A-Za-z0-9 \-]+)\]` at the head of the
input.  Returns the captured body and the remaining input.  The body class
excludes `]`, so the greedy `+` with backtracking matches exactly the maximal
run of body characters followed by a closing bracket. -/
def matchBracketAt (cs : List Char) : Option (List Char × List Char) :=
  match cs with
  | c :: rest =>
    let body := rest.takeWhile isBracketBodyChar
    let rest2 := rest.dropWhile isBracketBodyChar
    if c == '[' && rest2.head? == some ']' && !body.isEmpty then
      some (body, rest2.tail)
    else none
  | [] => none

/-- Try to match the blank pattern `\[_{3,}\]` at the head of the input.
Returns the underscore run and the remaining input. -/
def matchBlankAt (cs : List Char) : Option (List Char × List Char) :=
  match cs with
  | c :: rest =>
    let us := rest.takeWhile (fun x => x == '_')
    let rest2 := rest.dropWhile (fun x => x == '_')
    if c == '[' && rest2.head? == some ']' && decide (3 ≤ us.length) then
      some (us, rest2.tail)
    else none
  | [] => none

-- ## Scanners: the matches `re.finditer` would report on a given text

/-- A regex match: start offset, stop offset (exclusive) and matched text. -/
structure RegexMatch where
  mstart : Nat
  mstop : Nat
  mtext : List Char
  deriving DecidableEq, Repr

/-- Fuel-driven left-to-right non-overlapping bracket-pattern scan from
absolute position `i` (Python `re` scan semantics). -/
def bracketScanGo : Nat → Nat → List Char → List RegexMatch
  | 0, _, _ => []
  | _ + 1, _, [] => []
  | fuel + 1, i, c :: rest =>
    match matchBracketAt (c :: rest) with
    | some (body, rest3) =>
      ⟨i, i + body.length + 2, '[' :: body ++ [']']⟩ ::
        bracketScanGo fuel (i + body.length + 2) rest3
    | none => bracketScanGo fuel (i + 1) rest

/-- All non-overlapping bracket-pattern matches of the text. -/
def bracketScan (i : Nat) (cs : List Char) : List RegexMatch :=
  bracketScanGo cs.length i cs

/-- Fuel-driven left-to-right non-overlapping blank-pattern scan from absolute
position `i`. -/
def blankScanGo : Nat → Nat → List Char → List RegexMatch
  | 0, _, _ => []
  | _ + 1, _, [] => []
  | fuel + 1, i, c :: rest =>
    match matchBlankAt (c :: rest) with
    | some (us, rest3) =>
      ⟨i, i + us.length + 2, '[' :: us ++ [']']⟩ ::
        blankScanGo fuel (i + us.length + 2) rest3
    | none => blankScanGo fuel (i + 1) rest

/-- All non-overlapping blank-pattern matches of the text. -/
def blankScan (i : Nat) (cs : List Char) : List RegexMatch :=
  blankScanGo cs.length i cs

-- ## Name/Type Resolver (document_service.py `_infer_placeholder_type`)

/-- The placeholder type vocabulary of `app/schemas/document.py`. -/
inductive PlaceholderType where
  | text
  | date
  | number
  | email
  | name
  | address
  | phone
  | amount
  | percentage
  | boolean
  deriving DecidableEq, Repr

def dateWords : List (List Char) :=
  ["date".toList, "day".toList, "month".toList, "year".toList, "time".toList]

def nameWords : List (List Char) :=
  ["name".toList, "client".toList, "party".toList, "person".toList, "individual".toList]

def amountWords : List (List Char) :=
  ["amount".toList, "price".toList, "cost".toList, "fee".toList, "payment".toList,
   "money".toList, "dollar".toList, "$".toList]

def emailWords : List (List Char) :=
  ["email".toList, "mail".toList, "@".toList]

def addressWords : List (List Char) :=
  ["address".toList, "street".toList, "city".toList, "state".toList, "zip".toList,
   "location".toList]

def phoneWords : List (List Char) :=
  ["phone".toList, "telephone".toList, "mobile".toList, "cell".toList]

def numberWords : List (List Char) :=
  ["number".toList, "count".toList, "quantity".toList, "#".toList]

def percentageWords : List (List Char) :=
  ["percent".toList, "%".toList, "rate".toList, "ratio".toList]

def booleanWords : List (List Char) :=
  ["yes".toList, "no".toList, "true".toList, "false".toList, "check".toList,
   "select".toList]

/-- Python `any(word in text for word in words)`. -/
def anyWordIn (words : List (List Char)) (text : List Char) : Bool :=
  words.any (fun w => containsSub w text)

/-- `DocumentProcessingService._infer_placeholder_type`: keyword cascade over
the lower-cased marker text; the lower-cased context is computed but never
consulted by any rule, exactly as in the source. -/
def _infer_placeholder_type (placeholderText : List Char) (context : List Char) :
    PlaceholderType :=
  let text_lower := placeholderText.map pyLowerChar
  let _context_lower := context.map pyLowerChar
  if anyWordIn dateWords text_lower then .date
  else if anyWordIn nameWords text_lower then .name
  else if anyWordIn amountWords text_lower then .amount
  else if anyWordIn emailWords text_lower then .email
  else if anyWordIn addressWords text_lower then .address
  else if anyWordIn phoneWords text_lower then .phone
  else if anyWordIn numberWords text_lower then .number
  else if anyWordIn percentageWords text_lower then .percentage
  else if anyWordIn booleanWords text_lower then .boolean
  else .text

-- ## Template Rewriter (document_service.py `convert_custom_placeholders_to_jinja`)

/-- One entry of the `extracted_placeholders` list. -/
structure Extracted where
  original : List Char
  jinja_name : List Char
  ptype : PlaceholderType
  context : List Char
  description : List Char
  deriving DecidableEq, Repr

/-- `placeholder_text.replace(' ', '_').replace('-', '_')` character map. -/
def toJinjaChar (c : Char) : Char :=
  if c == ' ' then '_' else if c == '-' then '_' else c

/-- Decimal digits of a number, for `blank_{n}` names. -/
def natChars (n : Nat) : List Char :=
  (Nat.repr n).toList

/-- Context slice `full_text[max(0, start-30):min(len(full_text), end+30)]`
as written inline in both replacers of the source. -/
def replacerContext (full : List Char) (mstart mstop : Nat) : List Char :=
  pySlice full (mstart - 30) (min full.length (mstop + 30))

/-- The bracket replacer pass of `bracket_pattern.sub(bracket_replacer, text)`:
rewrites every bracket marker to a two-brace tag and extracts one entry per
match.  `full` is the paragraph's reconstructed full text, from which every
context window is sliced; `i` is the absolute scan position. -/
def bracketSubGo (full : List Char) : Nat → Nat → List Char → List Char × List Extracted
  | 0, _, cs => (cs, [])
  | _ + 1, _, [] => ([], [])
  | fuel + 1, i, c :: rest =>
    match matchBracketAt (c :: rest) with
    | some (body, rest3) =>
      let ptext := pyStrip body
      let jname := ptext.map toJinjaChar
      let ctx := replacerContext full i (i + body.length + 2)
      let entry : Extracted :=
        ⟨'[' :: ptext ++ [']'], jname, _infer_placeholder_type ptext ctx, ctx,
          "Fill in the value for ".toList ++ ptext⟩
      let tag := '{' :: '{' :: ' ' :: (jname ++ [' ', '}', '}'])
      let r := bracketSubGo full fuel (i + body.length + 2) rest3
      (tag ++ r.1, entry :: r.2)
    | none =>
      let r := bracketSubGo full fuel (i + 1) rest
      (c :: r.1, r.2)

/-- The blank replacer pass of `blank_pattern.sub(blank_replacer, text)` with
its document-global counter.  Scans `cs` (the bracket-rewritten text) while
slicing context windows from `full` (the original reconstructed text), exactly
as the source does. -/
def blankSubGo (full : List Char) : Nat → Nat → Nat → List Char →
    List Char × List Extracted × Nat
  | 0, _, counter, cs => (cs, [], counter)
  | _ + 1, _, counter, [] => ([], [], counter)
  | fuel + 1, i, counter, c :: rest =>
    match matchBlankAt (c :: rest) with
    | some (us, rest3) =>
      let jname := "blank_".toList ++ natChars counter
      let ctx := replacerContext full i (i + us.length + 2)
      let entry : Extracted :=
        ⟨'[' :: us ++ [']'], jname, .text, ctx,
          "Fill in the blank field #".toList ++ natChars counter⟩
      let tag := '{' :: '{' :: ' ' :: (jname ++ [' ', '}', '}'])
      let r := blankSubGo full fuel (i + us.length + 2) (counter + 1) rest3
      (tag ++ r.1, entry :: r.2.1, r.2.2)
    | none =>
      let r := blankSubGo full fuel (i + 1) counter rest
      (c :: r.1, r.2.1, r.2.2)

/-- One iteration of the paragraph loop: join the runs, rewrite bracket markers
then blank markers, write the rewritten text back to the first run and clear
the others.  Returns (new runs, extracted entries in append order, counter). -/
def processParagraph (counter : Nat) (runs : List (List Char)) :
    List (List Char) × List Extracted × Nat :=
  let fullText := runs.join
  let br := bracketSubGo fullText fullText.length 0 fullText
  let bl := blankSubGo fullText br.1.length 0 counter br.1
  let newRuns : List (List Char) :=
    match runs with
    | [] => []
    | _ :: rest => bl.1 :: rest.map (fun _ => [])
  (newRuns, br.2 ++ bl.2.1, bl.2.2)

/-- The paragraph loop of `convert_custom_placeholders_to_jinja`, threading the
document-global blank counter. -/
def convertGo : Nat → List (List (List Char)) → List (List (List Char)) × List Extracted × Nat
  | counter, [] => ([], [], counter)
  | counter, para :: rest =>
    let pr := processParagraph counter para
    let cr := convertGo pr.2.2 rest
    (pr.1 :: cr.1, pr.2.1 ++ cr.2.1, cr.2.2)

/-- `convert_custom_placeholders_to_jinja`: a document is its list of
paragraphs, each a list of run texts.  Returns the rewritten paragraphs (the
saved template) and the extracted placeholder list; the blank counter starts
at 1. -/
def convert_custom_placeholders_to_jinja (paras : List (List (List Char))) :
    List (List (List Char)) × List Extracted :=
  let r := convertGo 1 paras
  (r.1, r.2.1)

-- ## Data model (app/models/document.py, app/schemas/document.py)

/-- A placeholder row.  `placeholder_type` is always set by extraction. -/
structure Placeholder where
  id : Nat
  document_id : Nat
  placeholder_text : List Char
  jinja_name : List Char
  placeholder_type : PlaceholderType
  description : List Char
  context : List Char
  filled_value : Option (List Char)
  is_filled : Bool
  deriving DecidableEq, Repr

inductive ConversationStatus where
  | active
  | completed
  | paused
  deriving DecidableEq, Repr

/-- Role of a transcript message as stored in `conversation_history`. -/
inductive MessageRole where
  | human
  | ai
  deriving DecidableEq, Repr

/-- A conversation row.  `history` models the `conversation_history` JSON
message list maintained by `DatabaseChatMessageHistory`. -/
structure Conversation where
  document_id : Nat
  session_id : List Char
  current_placeholder_id : Option Nat
  status : ConversationStatus
  history : List (MessageRole × List Char)
  deriving DecidableEq, Repr

/-- The slice of the store a conversation turn touches: the placeholder table
(in creation/insertion order, as returned by unordered queries) and the
conversation row. -/
structure ConvState where
  placeholders : List Placeholder
  conversation : Conversation
  deriving DecidableEq, Repr

-- ## Fill-State Tracker (conversation_service.py)

/-- `ConversationService.get_next_placeholder`: first row of the placeholder
table with matching document and `is_filled == False`. -/
def get_next_placeholder (placeholders : List Placeholder) (document_id : Nat) :
    Option Placeholder :=
  placeholders.find? (fun p => p.document_id == document_id && p.is_filled == false)

/-- Setting `filled_value` and `is_filled` on the row with the given id
(the ORM mutation `current_placeholder.filled_value = ...; ... = True`). -/
def fillPlaceholderRow (ps : List Placeholder) (pid : Nat) (v : List Char) :
    List Placeholder :=
  ps.map (fun p => if p.id == pid then { p with filled_value := some v, is_filled := true } else p)

/-- Fresh progress count of filled placeholders of a document. -/
def countFilled (ps : List Placeholder) (document_id : Nat) : Nat :=
  (ps.filter (fun p => p.document_id == document_id && p.is_filled)).length

/-- Fresh progress count of all placeholders of a document. -/
def countTotal (ps : List Placeholder) (document_id : Nat) : Nat :=
  (ps.filter (fun p => p.document_id == document_id)).length

-- ## Value Validator (conversation_service.py `validate_placeholder_value`)

/-- Character class of the local part of the email pattern
`^[a-zA-Z0-9._%+-]+@[a-zA-Z0-9.-]+\.[a-zA-Z]{2,}$`. -/
def isEmailLocalChar (c : Char) : Bool :=
  c.isAlpha || c.isDigit || c == '.' || c == '_' || c == '%' || c == '+' || c == '-'

/-- Character class of the domain part of the email pattern. -/
def isEmailDomainChar (c : Char) : Bool :=
  c.isAlpha || c.isDigit || c == '.' || c == '-'

/-- Whole-string match of the email pattern.  The local class excludes `@`, so
the greedy `+` takes the maximal local-char prefix; the top-level-domain part
is alphabetic only, so it is the maximal alphabetic suffix and must be
immediately preceded by a dot with a non-empty domain before it.  (The Python
`$` would also accept one trailing newline; that corner is not modelled.) -/
def emailMatch (cs : List Char) : Bool :=
  let loc := cs.takeWhile isEmailLocalChar
  match cs.dropWhile isEmailLocalChar with
  | '@' :: r =>
    let rev := r.reverse
    let tld := rev.takeWhile (fun c => c.isAlpha)
    let rest2 := rev.dropWhile (fun c => c.isAlpha)
    (!loc.isEmpty) && decide (2 ≤ tld.length) &&
      (match rest2 with
       | '.' :: dom => (!dom.isEmpty) && dom.all isEmailDomainChar
       | _ => false)
  | _ => false

/-- Character class of the phone pattern `^\+?[\d\s\-\(\)]{10,}$`. -/
def isPhoneChar (c : Char) : Bool :=
  c.isDigit || c == ' ' || c == '\t' || c == '\n' || c == '\r' || c == '\x0b' ||
    c == '\x0c' || c == '-' || c == '(' || c == ')'

/-- Whole-string match of the phone pattern (`+` is not in the repeated class,
so the optional sign consumes a leading `+` deterministically). -/
def phoneMatch (cs : List Char) : Bool :=
  let body := match cs with
    | '+' :: r => r
    | r => r
  decide (10 ≤ body.length) && body.all isPhoneChar

/-- Match `\d{1,2}` then the separator, returning the remainder. -/
def dateSplit (sep : Char) (cs : List Char) : Option (List Char) :=
  let ds := cs.takeWhile Char.isDigit
  match cs.dropWhile Char.isDigit with
  | c :: r => if (ds.length == 1 || ds.length == 2) && c == sep then some r else none
  | [] => none

/-- Match `\d{4}$`. -/
def yearEnd (cs : List Char) : Bool :=
  cs.length == 4 && cs.all Char.isDigit

/-- Match `\d{1,2}$`. -/
def dayEnd (cs : List Char) : Bool :=
  (cs.length == 1 || cs.length == 2) && cs.all Char.isDigit

/-- Whole-string match of `^\d{1,2}sep\d{1,2}sep\d{4}$`. -/
def dateDMY (sep : Char) (cs : List Char) : Bool :=
  match dateSplit sep cs with
  | some r1 =>
    match dateSplit sep r1 with
    | some r2 => yearEnd r2
    | none => false
  | none => false

/-- Whole-string match of `^\d{4}-\d{1,2}-\d{1,2}$`. -/
def dateYMD (cs : List Char) : Bool :=
  let ds := cs.takeWhile Char.isDigit
  match cs.dropWhile Char.isDigit with
  | '-' :: r =>
    ds.length == 4 &&
      (match dateSplit '-' r with
       | some r2 => dayEnd r2
       | none => false)
  | _ => false

/-- One of the three accepted date shapes. -/
def dateMatch (cs : List Char) : Bool :=
  dateDMY '/' cs || dateYMD cs || dateDMY '-' cs

/-- Strip an optional leading sign. -/
def dropSign (cs : List Char) : List Char :=
  match cs with
  | '+' :: r => r
  | '-' :: r => r
  | r => r

/-- Mandatory exponent digits with optional sign. -/
def expDigits (cs : List Char) : Bool :=
  let r := dropSign cs
  (!r.isEmpty) && r.all Char.isDigit

/-- Optional exponent part after the mantissa. -/
def expPart (cs : List Char) : Bool :=
  match cs with
  | [] => true
  | 'e' :: r => expDigits r
  | 'E' :: r => expDigits r
  | _ => false

/-- Mantissa (with optional fraction) followed by an optional exponent. -/
def mantissaExp (cs : List Char) : Bool :=
  let d1 := cs.takeWhile Char.isDigit
  match cs.dropWhile Char.isDigit with
  | '.' :: r2 =>
    let d2 := r2.takeWhile Char.isDigit
    let r3 := r2.dropWhile Char.isDigit
    (!d1.isEmpty || !d2.isEmpty) && expPart r3
  | r => (!d1.isEmpty) && expPart r

/-- Case-insensitive comparison against a fixed lower-case word. -/
def lowerIs (cs : List Char) (w : List Char) : Bool :=
  cs.map pyLowerChar == w

/-- Acceptance of Python `float(value)`: optional surrounding whitespace and
sign, then a float literal or inf/infinity/nan.  (CPython additionally allows
underscore digit separators; that corner is not modelled.) -/
def pyFloatOk (value : List Char) : Bool :=
  let t := dropSign ((value.dropWhile (fun c => pyIsSpace c)).reverse.dropWhile
    (fun c => pyIsSpace c) |>.reverse)
  lowerIs t ("inf".toList) || lowerIs t ("infinity".toList) || lowerIs t ("nan".toList) ||
    mantissaExp t

/-- `ConversationService.validate_placeholder_value`: type-directed acceptance
rules; types without a rule always accept.  Returns (accepted, reason). -/
def validate_placeholder_value (p : Placeholder) (value : List Char) :
    Bool × List Char :=
  match p.placeholder_type with
  | .email =>
    if emailMatch value then (true, []) else
      (false, "Please provide a valid email address".toList)
  | .phone =>
    if phoneMatch value then (true, []) else
      (false, "Please provide a valid phone number".toList)
  | .date =>
    if dateMatch value then (true, []) else
      (false, "Please provide a valid date (MM/DD/YYYY, YYYY-MM-DD, or MM-DD-YYYY)".toList)
  | .number =>
    if pyFloatOk (value.filter (fun c => !(c == ','))) then (true, []) else
      (false, "Please provide a valid number".toList)
  | .amount =>
    if pyFloatOk (value.filter (fun c => !(c == '$' || c == ','))) then (true, []) else
      (false, "Please provide a valid amount (e.g., $1,000.00 or 1000)".toList)
  | _ => (true, [])

-- ## Dialogue Orchestrator (conversation_service.py `_process_tool_calls`,
-- `process_user_message`)

/-- A decoded tool call from the capability response.  A name that matches no
branch of the dispatch falls through with no effect. -/
inductive ToolCall where
  | fillPlaceholder (extracted_value : List Char) (reasoning : List Char)
  | requestMoreInfo (question : List Char) (examples : List Char)
  | completeDocument (message : List Char)
  | unknownTool (tool_name : List Char)
  deriving DecidableEq, Repr

/-- Loop state of `_process_tool_calls`: the running `ai_response`, the local
`current_placeholder` variable and the store. -/
structure TurnState where
  ai_response : List Char
  current : Option Placeholder
  state : ConvState
  deriving DecidableEq, Repr

def confirmationMsg (name v : List Char) : List Char :=
  "✅ Perfect! I\x27ve filled \x27".toList ++ name ++ "\x27 with: ".toList ++ v

def allFilledBlurb : List Char :=
  "🎉 Congratulations! All placeholders have been filled. Your document is now complete and ready for download!".toList

def completeToolBlurb : List Char :=
  "\n\n🎉 Your document is now complete and ready for download!".toList

def validationFailedMsg (reason : List Char) : List Char :=
  "❌ Validation failed: ".toList ++ reason ++ ". Please provide a valid value.".toList

def forExampleSep : List Char :=
  "\n\nFor example: ".toList

def retryMsg (err : List Char) : List Char :=
  "I\x27m having trouble processing your request. Could you please try again? Error: ".toList ++ err

/-- One iteration of the tool-call loop in `_process_tool_calls`.  `intro`
models the `_introduce_next_placeholder` capability call (which always returns
some text, using a canned fallback on its own failure); `doc` is the
document id. -/
def processToolCallStep (intro : Placeholder → List Char) (doc : Nat)
    (ts : TurnState) (tc : ToolCall) : TurnState :=
  match tc with
  | .fillPlaceholder extracted_value _reasoning =>
    match ts.current with
    | some cp =>
      if extracted_value.isEmpty then ts
      else
        let v := validate_placeholder_value cp extracted_value
        if v.1 then
          let ps := fillPlaceholderRow ts.state.placeholders cp.id extracted_value
          let confirm := confirmationMsg cp.placeholder_text extracted_value
          match get_next_placeholder ps doc with
          | some np =>
            { ai_response := confirm ++ "\n\n".toList ++ intro np
              current := some np
              state :=
                { placeholders := ps
                  conversation :=
                    { ts.state.conversation with current_placeholder_id := some np.id } } }
          | none =>
            { ai_response := confirm ++ "\n\n".toList ++ allFilledBlurb
              current := none
              state :=
                { placeholders := ps
                  conversation :=
                    { ts.state.conversation with
                        current_placeholder_id := none
                        status := .completed } } }
        else
          { ts with ai_response := validationFailedMsg v.2 }
    | none => ts
  | .completeDocument message =>
    { ai_response := message ++ completeToolBlurb
      current := none
      state :=
        { ts.state with
            conversation :=
              { ts.state.conversation with
                  current_placeholder_id := none
                  status := .completed } } }
  | .requestMoreInfo question examples =>
    { ts with
        ai_response := if examples.isEmpty then question else question ++ forExampleSep ++ examples }
  | .unknownTool _ => ts

/-- `_process_tool_calls`: start from the response content and fold the tool
calls in order. -/
def _process_tool_calls (intro : Placeholder → List Char) (doc : Nat)
    (toolCalls : List ToolCall) (content : List Char) (current : Option Placeholder)
    (st : ConvState) : TurnState :=
  toolCalls.foldl (processToolCallStep intro doc) ⟨content, current, st⟩

/-- Outcome of the capability (LLM) call for one turn: either a response with
content and decoded tool calls, or a failure (timeout / exception), which the
source catches in the `except` branch of `process_user_message`. -/
inductive CapabilityResult where
  | ok (content : List Char) (toolCalls : List ToolCall)
  | failure (err : List Char)
  deriving DecidableEq, Repr

/-- `process_user_message` for one turn.  Resolves the current placeholder
(assigning the next unfilled one when the conversation has none), then either
processes the capability response's tool calls, or — when the capability call
fails — returns the generic retry message with no further mutation.  On
success the message-history adapter (`RunnableWithMessageHistory` over
`DatabaseChatMessageHistory`) appends the human input and the raw model
content to the stored transcript; on failure it appends nothing.  The
transcript writes of the nested `_introduce_next_placeholder` call are not
modelled (no claim depends on them). -/
def process_user_message (intro : Placeholder → List Char) (cap : CapabilityResult)
    (userMsg : List Char) (st : ConvState) :
    List Char × Option Placeholder × ConvState :=
  let current0 := st.conversation.current_placeholder_id.bind
    (fun pid => st.placeholders.find? (fun p => p.id == pid))
  let cc : Option Placeholder × Conversation :=
    match current0 with
    | some p => (some p, st.conversation)
    | none =>
      match get_next_placeholder st.placeholders st.conversation.document_id with
      | some p => (some p, { st.conversation with current_placeholder_id := some p.id })
      | none => (none, st.conversation)
  let st1 : ConvState := { st with conversation := cc.2 }
  match cap with
  | .failure e => (retryMsg e, cc.1, st1)
  | .ok content tcs =>
    let conv2 :=
      { cc.2 with
          history := cc.2.history ++ [(MessageRole.human, userMsg), (MessageRole.ai, content)] }
    let ts := _process_tool_calls intro st.conversation.document_id tcs content cc.1
      { st1 with conversation := conv2 }
    (ts.ai_response, ts.current, ts.state)

-- ## Invariants

/-- The conversation invariant of the spec: completed status forces a null
current-placeholder reference. -/
def convInvariant (c : Conversation) : Prop :=
  c.status = .completed → c.current_placeholder_id = none

/-- Coherence of the tool-call loop state: when the conversation is already
completed, both the loop's local current placeholder and the stored reference
are cleared.  This holds at loop entry in every real flow (the router only
feeds active conversations into `process_user_message`). -/
def turnInvariant (ts : TurnState) : Prop :=
  ts.state.conversation.status = .completed →
    (ts.current = none ∧ ts.state.conversation.current_placeholder_id = none)

instance (c : Conversation) : Decidable (convInvariant c) := by
  unfold convInvariant; infer_instance

instance (ts : TurnState) : Decidable (turnInvariant ts) := by
  unfold turnInvariant; infer_instance

-- ## Helpers for concrete instances

/-- A concrete placeholder row for witnesses and counterexamples. -/
def mkPlaceholder (id doc : Nat) (ty : PlaceholderType) (filled : Bool) : Placeholder :=
  ⟨id, doc, "[X]".toList, "X".toList, ty, [], [],
    if filled then some ("v".toList) else none, filled⟩

-- ## Spec-side definitions used to state refinement claims

/-- The spec's type-inference rule table, in its fixed priority order. -/
def specTypeRules : List (List (List Char) × PlaceholderType) :=
  [(dateWords, .date), (nameWords, .name), (amountWords, .amount), (emailWords, .email),
   (addressWords, .address), (phoneWords, .phone), (numberWords, .number),
   (percentageWords, .percentage), (booleanWords, .boolean)]

/-- The spec's description of type inference: a keyword-match cascade over the
lower-cased marker text, first matching rule wins, default `text`. -/
def specInferType (markerText : List Char) : PlaceholderType :=
  match specTypeRules.find? (fun r => anyWordIn r.1 (markerText.map pyLowerChar)) with
  | some r => r.2
  | none => .text

def c2p3 : Placeholder := mkPlaceholder 3 1 .text false

def c2st : ConvState :=
  ⟨[mkPlaceholder 1 1 .text true, mkPlaceholder 2 1 .text true, c2p3],
    ⟨1, [], some 3, .active, []⟩⟩

def c2ts : TurnState := ⟨[], some c2p3, c2st⟩

-- ## Text Scanner over run-structured paragraphs

/-- The Scanner applied to a paragraph given as its list of runs: the source
joins the runs into one string before any pattern matching
(`full_text = "".join(run.text for run in para.runs)`). -/
def paragraphBracketMatches (runs : List (List Char)) : List RegexMatch :=
  bracketScan 0 runs.join

/-- Blank-pattern matches of a run-structured paragraph, after joining. -/
def paragraphBlankMatches (runs : List (List Char)) : List RegexMatch :=
  blankScan 0 runs.join

def c6st : ConvState :=
  ⟨[mkPlaceholder 11 1 .text false], ⟨1, [], some 11, .active, []⟩⟩

-- ## Context windows: relating the replacers to the scanners

/-- The spec's context-window function: `r` characters of surrounding text on
each side of the span `[s, e)`, clamped to the text bounds. -/
def contextWindow (t : List Char) (s e r : Nat) : List Char :=
  pySlice t (s - r) (min t.length (e + r))

def c4text : List Char :=
  ("aaaaaaaaaaaaaaaaaaaaaaaaaaaaaaaaaaaaaaaa[Date]bbbbbbbbbbbbbbbbbbbbbbbbbbbbbbbbbbbbbbbb").toList

-- ## Deduplication (spec-side) and the extracted-list cardinality

/-- The spec's deduplication: keep the first occurrence of each stable name,
preserving order (fuel-driven; the list length is always enough fuel). -/
def dedupKeepFirstGo : Nat → List (List Char) → List (List Char)
  | 0, l => l
  | _ + 1, [] => []
  | fuel + 1, x :: xs => x :: dedupKeepFirstGo fuel (xs.filter (fun y => !(y == x)))

def dedupKeepFirst (l : List (List Char)) : List (List Char) :=
  dedupKeepFirstGo l.length l

/-- Number of marker matches of one paragraph: bracket matches of the
reconstructed text plus blank matches of the bracket-rewritten text. -/
def paragraphMatchCount (runs : List (List Char)) : Nat :=
  (bracketScan 0 runs.join).length +
    (blankScan 0 (bracketSubGo runs.join runs.join.length 0 runs.join).1).length

def c1doc : List (List (List Char)) :=
  [[("[Name] x [Name]").toList], [("a [ ] b").toList]]

theorem dropWhile_length_le (p : Char → Bool) (l : List Char) :
    (l.dropWhile p).length ≤ l.length := by
  induction l with
  | nil => simp
  | cons a l ih =>
    rw [List.dropWhile_cons]
    split
    · simp only [List.length_cons]; omega
    · simp

theorem matchBracketAt_some_length {cs body rest3} (h : matchBracketAt cs = some (body, rest3)) :
    rest3.length < cs.length := by
  cases cs with
  | nil => exact Option.noConfusion h
  | cons c rest =>
    simp only [matchBracketAt] at h
    split at h
    · simp only [Option.some.injEq, Prod.mk.injEq] at h
      obtain ⟨h1, h2⟩ := h
      subst h2
      have hlen := dropWhile_length_le isBracketBodyChar rest
      have htail := List.length_tail (rest.dropWhile isBracketBodyChar)
      simp only [List.length_cons]
      omega
    · exact Option.noConfusion h

theorem matchBlankAt_some_length {cs us rest3} (h : matchBlankAt cs = some (us, rest3)) :
    rest3.length < cs.length := by
  cases cs with
  | nil => exact Option.noConfusion h
  | cons c rest =>
    simp only [matchBlankAt] at h
    split at h
    · simp only [Option.some.injEq, Prod.mk.injEq] at h
      obtain ⟨h1, h2⟩ := h
      subst h2
      have hlen := dropWhile_length_le (fun x => x == '_') rest
      have htail := List.length_tail (rest.dropWhile (fun x => x == '_'))
      simp only [List.length_cons]
      omega
    · exact Option.noConfusion h

/-- The fuel argument is irrelevant as long as it dominates the text length. -/
theorem bracketScanGo_fuel {f g : Nat} : ∀ {cs : List Char}, cs.length ≤ f → cs.length ≤ g →
    ∀ i, bracketScanGo f i cs = bracketScanGo g i cs := by
  induction f generalizing g with
  | zero =>
    intro cs hf _ i
    have : cs = [] := List.eq_nil_of_length_eq_zero (Nat.le_zero.mp hf)
    subst this
    cases g <;> rfl
  | succ f ih =>
    intro cs hf hg i
    cases cs with
    | nil => cases g <;> rfl
    | cons c rest =>
      cases g with
      | zero => simp at hg
      | succ g =>
        show bracketScanGo (f + 1) i (c :: rest) = bracketScanGo (g + 1) i (c :: rest)
        rw [bracketScanGo, bracketScanGo]
        cases hm : matchBracketAt (c :: rest) with
        | none =>
          simp only [List.length_cons] at hf hg
          exact ih (by omega) (by omega) (i + 1)
        | some pr =>
          obtain ⟨body, rest3⟩ := pr
          have hlt := matchBracketAt_some_length hm
          simp only [List.length_cons] at hf hg hlt
          exact congrArg
            (fun l => (⟨i, i + body.length + 2, '[' :: body ++ [']']⟩ : RegexMatch) :: l)
            (ih (by omega) (by omega) (i + body.length + 2))

theorem blankScanGo_fuel {f g : Nat} : ∀ {cs : List Char}, cs.length ≤ f → cs.length ≤ g →
    ∀ i, blankScanGo f i cs = blankScanGo g i cs := by
  induction f generalizing g with
  | zero =>
    intro cs hf _ i
    have : cs = [] := List.eq_nil_of_length_eq_zero (Nat.le_zero.mp hf)
    subst this
    cases g <;> rfl
  | succ f ih =>
    intro cs hf hg i
    cases cs with
    | nil => cases g <;> rfl
    | cons c rest =>
      cases g with
      | zero => simp at hg
      | succ g =>
        show blankScanGo (f + 1) i (c :: rest) = blankScanGo (g + 1) i (c :: rest)
        rw [blankScanGo, blankScanGo]
        cases hm : matchBlankAt (c :: rest) with
        | none =>
          simp only [List.length_cons] at hf hg
          exact ih (by omega) (by omega) (i + 1)
        | some pr =>
          obtain ⟨us, rest3⟩ := pr
          have hlt := matchBlankAt_some_length hm
          simp only [List.length_cons] at hf hg hlt
          exact congrArg
            (fun l => (⟨i, i + us.length + 2, '[' :: us ++ [']']⟩ : RegexMatch) :: l)
            (ih (by omega) (by omega) (i + us.length + 2))

theorem sanityCheck1 : bracketScan 0 ("ab [Client Name] x".toList) =
    [⟨3, 16, "[Client Name]".toList⟩] := by decide

theorem sanityCheck2 : blankScan 0 ("a [____] b [__] c [_____]".toList) =
    [⟨2, 8, "[____]".toList⟩, ⟨18, 25, "[_____]".toList⟩] := by decide

theorem sanityCheck3 :
    (convert_custom_placeholders_to_jinja [["[Client Name]".toList]]).2.map
      (fun e => (e.jinja_name, e.ptype)) = [("Client_Name".toList, .name)] := by decide

theorem sanityCheck4 :
    (convert_custom_placeholders_to_jinja [["a [____] b [_____] c [____] d".toList]]).2.map
      (fun e => e.jinja_name) =
      ["blank_1".toList, "blank_2".toList, "blank_3".toList] := by decide

theorem sanityCheck5 :
    (processParagraph 1 [" sign: [____] here".toList]).1 =
      [" sign: \x7b\x7b blank_1 \x7d\x7d here".toList] := by decide

theorem sanityCheck6 : emailMatch ("user.name+tag@sub.domain.co".toList) = true := by decide

theorem sanityCheck7 : emailMatch ("not-an-email".toList) = false := by decide

theorem sanityCheck8 : dateMatch ("12/3/2026".toList) = true := by decide

theorem sanityCheck9 : pyFloatOk ("1000.50".toList) = true := by decide

theorem sanityCheck10 : pyFloatOk ("12a".toList) = false := by decide

-- ## Claims

/-- Claim C9: type inference depends only on the marker text; the surrounding
context argument is never consulted by any rule, so any two invocations with
the same marker text and different contexts agree. -/
theorem c9_type_inference_context_independent :
    ∀ (t c₁ c₂ : List Char), _infer_placeholder_type t c₁ = _infer_placeholder_type t c₂ :=
  fun _ _ _ => rfl

/-- Claim C5: the inferred semantic type of a bracket marker is the keyword
cascade over the lower-cased marker text in the fixed priority order date,
name, amount, email, address, phone, number, percentage, boolean, first match
wins, default text; and the marker `[Client Name]` yields stable name
`Client_Name` and type `name`. -/
theorem c5_type_inference_cascade :
    (∀ (t c : List Char), _infer_placeholder_type t c = specInferType t) ∧
    (convert_custom_placeholders_to_jinja [["[Client Name]".toList]]).2.map
      (fun e => (e.jinja_name, e.ptype)) = [("Client_Name".toList, PlaceholderType.name)] := by
  constructor
  · intro t c
    unfold _infer_placeholder_type specInferType specTypeRules
    simp only [List.find?]
    generalize anyWordIn dateWords (t.map pyLowerChar) = b1
    generalize anyWordIn nameWords (t.map pyLowerChar) = b2
    generalize anyWordIn amountWords (t.map pyLowerChar) = b3
    generalize anyWordIn emailWords (t.map pyLowerChar) = b4
    generalize anyWordIn addressWords (t.map pyLowerChar) = b5
    generalize anyWordIn phoneWords (t.map pyLowerChar) = b6
    generalize anyWordIn numberWords (t.map pyLowerChar) = b7
    generalize anyWordIn percentageWords (t.map pyLowerChar) = b8
    generalize anyWordIn booleanWords (t.map pyLowerChar) = b9
    cases b1 <;> cases b2 <;> cases b3 <;> cases b4 <;> cases b5 <;> cases b6 <;>
      cases b7 <;> cases b8 <;> cases b9 <;> rfl
  · decide

/-- Claim C8: `get_next_placeholder` returns the first placeholder of the
document with `is_filled = false` in insertion order, and `none` when every
placeholder of the document is filled. -/
theorem c8_next_unfilled_first :
    (∀ (doc : Nat) (l1 l2 : List Placeholder) (p : Placeholder),
      p.document_id = doc → p.is_filled = false →
      (∀ q ∈ l1, q.document_id = doc → q.is_filled = true) →
      get_next_placeholder (l1 ++ p :: l2) doc = some p) ∧
    (∀ (doc : Nat) (ps : List Placeholder),
      (∀ q ∈ ps, q.document_id = doc → q.is_filled = true) →
      get_next_placeholder ps doc = none) := by
  constructor
  · intro doc l1 l2 p hp hf hall
    induction l1 with
    | nil =>
      simp [get_next_placeholder, List.find?, hp, hf]
    | cons q l1 ih =>
      have hcond : (q.document_id == doc && q.is_filled == false) = false := by
        by_cases h : q.document_id = doc
        · have hq := hall q (List.mem_cons_self q l1) h
          simp [hq]
        · simp [h]
      unfold get_next_placeholder at ih ⊢
      rw [List.cons_append, List.find?_cons_of_neg _
        (by simp [hcond]; exact fun h => hall q (List.mem_cons_self q l1) h)]
      exact ih (fun s hs hd => hall s (List.mem_cons_of_mem q hs) hd)
  · intro doc ps hall
    unfold get_next_placeholder
    rw [List.find?_eq_none]
    intro q hq
    by_cases h : q.document_id = doc
    · simp [h, hall q hq h]
    · simp [h]

theorem c8_witness :
    ((mkPlaceholder 2 1 .text false).document_id = 1 ∧
      (mkPlaceholder 2 1 .text false).is_filled = false ∧
      (∀ q ∈ [mkPlaceholder 1 1 .text true], q.document_id = 1 → q.is_filled = true) ∧
      get_next_placeholder
        ([mkPlaceholder 1 1 .text true] ++ mkPlaceholder 2 1 .text false :: [])
        1 = some (mkPlaceholder 2 1 .text false)) ∧
    ((∀ q ∈ [mkPlaceholder 1 1 .text true, mkPlaceholder 2 1 .text true],
        q.document_id = 1 → q.is_filled = true) ∧
      get_next_placeholder [mkPlaceholder 1 1 .text true, mkPlaceholder 2 1 .text true]
        1 = none) :=
  ⟨⟨rfl, rfl, by decide,
    c8_next_unfilled_first.1 1 [mkPlaceholder 1 1 .text true] [] (mkPlaceholder 2 1 .text false)
      rfl rfl (by decide)⟩,
   ⟨by decide,
    c8_next_unfilled_first.2 1 [mkPlaceholder 1 1 .text true, mkPlaceholder 2 1 .text true]
      (by decide)⟩⟩

/-- Claim C10: a fill directive with an empty extracted value, or arriving
while the conversation has no current placeholder, is a silent no-op: the
whole loop state — placeholders, conversation (status, current-placeholder
reference, transcript) and the running response — is returned unchanged, so no
validation or confirmation message is produced. -/
theorem c10_fill_noop :
    ∀ (introF : Placeholder → List Char) (doc : Nat) (ts : TurnState) (v r : List Char),
      (v.isEmpty = true ∨ ts.current = none) →
      processToolCallStep introF doc ts (.fillPlaceholder v r) = ts := by
  intro introF doc ts v r h
  unfold processToolCallStep
  rcases h with h | h
  · cases hc : ts.current with
    | none => rfl
    | some cp => simp [h]
  · rw [h]

theorem c10_fill_noop_witness :
    (("" : String).toList.isEmpty = true ∨
        (⟨[], some (mkPlaceholder 1 1 .text false), ⟨[], ⟨1, [], none, .active, []⟩⟩⟩ :
          TurnState).current = none) ∧
      processToolCallStep (fun _ => []) 1
        ⟨[], some (mkPlaceholder 1 1 .text false), ⟨[], ⟨1, [], none, .active, []⟩⟩⟩
        (.fillPlaceholder ("" : String).toList []) =
        ⟨[], some (mkPlaceholder 1 1 .text false), ⟨[], ⟨1, [], none, .active, []⟩⟩⟩ :=
  ⟨Or.inl rfl,
    c10_fill_noop (fun _ => []) 1
      ⟨[], some (mkPlaceholder 1 1 .text false), ⟨[], ⟨1, [], none, .active, []⟩⟩⟩
      (("" : String).toList) [] (Or.inl rfl)⟩

/-- Claim C7: a fill directive for an email-typed placeholder whose value does
not match the email pattern is rejected: the response is the validation
failure message whose reason mentions "valid email", the store and the current
placeholder are unchanged (the placeholder stays unfilled), and nothing else
is mutated. -/
theorem c7_email_validation_rejection :
    ∀ (introF : Placeholder → List Char) (doc : Nat) (ts : TurnState)
      (v r : List Char) (cp : Placeholder),
      ts.current = some cp →
      cp.placeholder_type = PlaceholderType.email →
      emailMatch v = false →
      v.isEmpty = false →
      (processToolCallStep introF doc ts (.fillPlaceholder v r)).state = ts.state ∧
      (processToolCallStep introF doc ts (.fillPlaceholder v r)).current = ts.current ∧
      (processToolCallStep introF doc ts (.fillPlaceholder v r)).ai_response =
        validationFailedMsg (("Please provide a valid email address").toList) ∧
      containsSub (("valid email").toList)
        (("Please provide a valid email address").toList) = true := by
  intro introF doc ts v r cp hc hty he hne
  have hval : validate_placeholder_value cp v =
      (false, ("Please provide a valid email address").toList) := by
    unfold validate_placeholder_value
    rw [hty]
    simp [he]
  have hstep : processToolCallStep introF doc ts (.fillPlaceholder v r) =
      { ts with
          ai_response :=
            validationFailedMsg (("Please provide a valid email address").toList) } := by
    unfold processToolCallStep
    rw [hc]
    simp [hne, hval]
  rw [hstep]
  exact ⟨rfl, rfl, rfl, by decide⟩

theorem c7_email_validation_rejection_witness :
    ((⟨[], some (mkPlaceholder 1 1 .email false), ⟨[mkPlaceholder 1 1 .email false],
        ⟨1, [], some 1, .active, []⟩⟩⟩ : TurnState).current =
      some (mkPlaceholder 1 1 .email false)) ∧
    (mkPlaceholder 1 1 .email false).placeholder_type = PlaceholderType.email ∧
    emailMatch (("not-an-email").toList) = false ∧
    (("not-an-email").toList).isEmpty = false ∧
    (processToolCallStep (fun _ => []) 1
        ⟨[], some (mkPlaceholder 1 1 .email false), ⟨[mkPlaceholder 1 1 .email false],
          ⟨1, [], some 1, .active, []⟩⟩⟩
        (.fillPlaceholder (("not-an-email").toList) [])).state =
      (⟨[], some (mkPlaceholder 1 1 .email false), ⟨[mkPlaceholder 1 1 .email false],
        ⟨1, [], some 1, .active, []⟩⟩⟩ : TurnState).state ∧
    containsSub (("valid email").toList)
      (("Please provide a valid email address").toList) = true :=
  ⟨rfl, rfl, by decide, rfl,
    (c7_email_validation_rejection (fun _ => []) 1
      ⟨[], some (mkPlaceholder 1 1 .email false), ⟨[mkPlaceholder 1 1 .email false],
        ⟨1, [], some 1, .active, []⟩⟩⟩
      (("not-an-email").toList) [] (mkPlaceholder 1 1 .email false)
      rfl rfl (by decide) rfl).1,
    by decide⟩

theorem processToolCallStep_turnInvariant (introF : Placeholder → List Char) (doc : Nat)
    (ts : TurnState) (tc : ToolCall) (h : turnInvariant ts) :
    turnInvariant (processToolCallStep introF doc ts tc) := by
  cases tc with
  | fillPlaceholder v r =>
    unfold processToolCallStep
    cases hc : ts.current with
    | none => exact h
    | some cp =>
      dsimp only
      split
      · exact h
      · split
        · split
          · intro hst
            exact absurd (h hst).1 (by simp [hc])
          · intro _
            exact ⟨rfl, rfl⟩
        · intro hst
          exact absurd (h hst).1 (by simp [hc])
  | requestMoreInfo q ex =>
    intro hst
    exact ⟨(h hst).1, (h hst).2⟩
  | completeDocument m =>
    intro _
    exact ⟨rfl, rfl⟩
  | unknownTool n => exact h

theorem _process_tool_calls_turnInvariant (introF : Placeholder → List Char) (doc : Nat) :
    ∀ (tcs : List ToolCall) (ts : TurnState), turnInvariant ts →
      turnInvariant (tcs.foldl (processToolCallStep introF doc) ts) := by
  intro tcs
  induction tcs with
  | nil => intro ts h; exact h
  | cons tc tcs ih =>
    intro ts h
    exact ih _ (processToolCallStep_turnInvariant introF doc ts tc h)

/-- Claim C2: the tool-call processing of a turn keeps the conversation
invariant "status completed implies null current-placeholder reference"
(given the loop-entry coherence that holds on every real flow); filling the
last unfilled placeholder of the document sets the conversation status to
completed and clears the current placeholder; and the explicit complete
directive does the same. -/
theorem c2_completed_invariant :
    (∀ (introF : Placeholder → List Char) (doc : Nat) (tcs : List ToolCall)
       (content : List Char) (cur : Option Placeholder) (st : ConvState),
       turnInvariant ⟨content, cur, st⟩ →
       convInvariant (_process_tool_calls introF doc tcs content cur st).state.conversation) ∧
    (∀ (introF : Placeholder → List Char) (doc : Nat) (ts : TurnState)
       (v r : List Char) (cp : Placeholder),
       ts.current = some cp → v.isEmpty = false →
       (validate_placeholder_value cp v).1 = true →
       get_next_placeholder (fillPlaceholderRow ts.state.placeholders cp.id v) doc = none →
       (processToolCallStep introF doc ts
           (.fillPlaceholder v r)).state.conversation.status = .completed ∧
       (processToolCallStep introF doc ts
           (.fillPlaceholder v r)).state.conversation.current_placeholder_id = none ∧
       (processToolCallStep introF doc ts (.fillPlaceholder v r)).current = none) ∧
    (∀ (introF : Placeholder → List Char) (doc : Nat) (ts : TurnState) (m : List Char),
       (processToolCallStep introF doc ts
           (.completeDocument m)).state.conversation.status = .completed ∧
       (processToolCallStep introF doc ts
           (.completeDocument m)).state.conversation.current_placeholder_id = none ∧
       (processToolCallStep introF doc ts (.completeDocument m)).current = none) := by
  refine ⟨?_, ?_, ?_⟩
  · intro introF doc tcs content cur st h
    intro hst
    exact (_process_tool_calls_turnInvariant introF doc tcs ⟨content, cur, st⟩ h hst).2
  · intro introF doc ts v r cp hc hv hval hn
    have hstep : processToolCallStep introF doc ts (.fillPlaceholder v r) =
        { ai_response :=
            confirmationMsg cp.placeholder_text v ++ "\n\n".toList ++ allFilledBlurb
          current := none
          state :=
            { placeholders := fillPlaceholderRow ts.state.placeholders cp.id v
              conversation :=
                { ts.state.conversation with
                    current_placeholder_id := none
                    status := .completed } } } := by
      unfold processToolCallStep
      rw [hc]
      simp [hv, hval, hn]
    rw [hstep]
    exact ⟨rfl, rfl, rfl⟩
  · intro introF doc ts m
    exact ⟨rfl, rfl, rfl⟩

theorem c2_completed_invariant_witness :
    (turnInvariant ⟨[], some c2p3, c2st⟩ ∧
      convInvariant
        (_process_tool_calls (fun _ => []) 1
          [ToolCall.fillPlaceholder (("John").toList) []] [] (some c2p3)
          c2st).state.conversation) ∧
    (c2ts.current = some c2p3 ∧
      (("John").toList).isEmpty = false ∧
      (validate_placeholder_value c2p3 (("John").toList)).1 = true ∧
      get_next_placeholder
        (fillPlaceholderRow c2ts.state.placeholders c2p3.id (("John").toList)) 1 = none ∧
      (processToolCallStep (fun _ => []) 1 c2ts
          (.fillPlaceholder (("John").toList) [])).state.conversation.status = .completed ∧
      (processToolCallStep (fun _ => []) 1 c2ts
          (.fillPlaceholder (("John").toList) [])).state.conversation.current_placeholder_id =
        none ∧
      (processToolCallStep (fun _ => []) 1 c2ts
          (.fillPlaceholder (("John").toList) [])).current = none) ∧
    ((processToolCallStep (fun _ => []) 1 c2ts
          (.completeDocument (("done").toList))).state.conversation.status = .completed ∧
      (processToolCallStep (fun _ => []) 1 c2ts
          (.completeDocument (("done").toList))).state.conversation.current_placeholder_id =
        none ∧
      (processToolCallStep (fun _ => []) 1 c2ts
          (.completeDocument (("done").toList))).current = none) := by
  refine ⟨⟨by decide, c2_completed_invariant.1 (fun _ => []) 1
      [ToolCall.fillPlaceholder (("John").toList) []] [] (some c2p3) c2st (by decide)⟩,
    ⟨rfl, by decide, by decide, by decide,
      c2_completed_invariant.2.1 (fun _ => []) 1 c2ts (("John").toList) [] c2p3
        rfl (by decide) (by decide) (by decide)⟩,
    c2_completed_invariant.2.2 (fun _ => []) 1 c2ts (("done").toList)⟩

/-- Claim C3: because the Scanner concatenates a paragraph's runs before
pattern matching, any partition of the same text into runs produces exactly
the same matches (same matched texts and positions in the reconstructed text)
as the unsplit text, and the paragraph rewriting pass extracts exactly the
same placeholder entries. -/
theorem c3_scanner_run_split_invariance :
    ∀ (runs : List (List Char)) (text : List Char) (counter : Nat),
      runs.join = text →
      paragraphBracketMatches runs = bracketScan 0 text ∧
      paragraphBlankMatches runs = blankScan 0 text ∧
      (processParagraph counter runs).2.1 = (processParagraph counter [text]).2.1 := by
  intro runs text counter h
  have hjoin : ([text] : List (List Char)).join = text := by simp
  refine ⟨?_, ?_, ?_⟩
  · unfold paragraphBracketMatches
    rw [h]
  · unfold paragraphBlankMatches
    rw [h]
  · unfold processParagraph
    rw [h, hjoin]

theorem c3_scanner_run_split_invariance_witness :
    (["ab [Cl".toList, "ient Name] x [_".toList, "___] y".toList] :
        List (List Char)).join = ("ab [Client Name] x [____] y").toList ∧
    paragraphBracketMatches ["ab [Cl".toList, "ient Name] x [_".toList, "___] y".toList] =
      bracketScan 0 (("ab [Client Name] x [____] y").toList) ∧
    paragraphBlankMatches ["ab [Cl".toList, "ient Name] x [_".toList, "___] y".toList] =
      blankScan 0 (("ab [Client Name] x [____] y").toList) ∧
    (processParagraph 1
        ["ab [Cl".toList, "ient Name] x [_".toList, "___] y".toList]).2.1 =
      (processParagraph 1 [("ab [Client Name] x [____] y").toList]).2.1 := by
  have h := c3_scanner_run_split_invariance
    ["ab [Cl".toList, "ient Name] x [_".toList, "___] y".toList]
    (("ab [Client Name] x [____] y").toList) 1 (by decide)
  exact ⟨by decide, h.1, h.2.1, h.2.2⟩

-- ## Capability failure handling

/-- Claim C6 (amended): when the capability call fails during a turn whose
conversation already has a resolvable current placeholder, the turn returns
the generic retry message and leaves the entire conversation state — current
placeholder, placeholder table (hence the filled count) and stored transcript —
unchanged; in particular no message is appended to the transcript and the
conversation is not terminated. -/
theorem c6_capability_failure_recoverable :
    ∀ (introF : Placeholder → List Char) (e userMsg : List Char) (st : ConvState)
      (pid : Nat) (p : Placeholder),
      st.conversation.current_placeholder_id = some pid →
      st.placeholders.find? (fun q => q.id == pid) = some p →
      process_user_message introF (.failure e) userMsg st = (retryMsg e, some p, st) ∧
      countFilled (process_user_message introF (.failure e) userMsg st).2.2.placeholders
          st.conversation.document_id =
        countFilled st.placeholders st.conversation.document_id ∧
      (process_user_message introF (.failure e) userMsg st).2.2.conversation.history =
        st.conversation.history := by
  intro introF e userMsg st pid p h1 h2
  have hmain : process_user_message introF (.failure e) userMsg st =
      (retryMsg e, some p, st) := by
    unfold process_user_message
    rw [h1]
    simp only [Option.some_bind]
    rw [h2]
  exact ⟨hmain, by rw [hmain], by rw [hmain]⟩

theorem c6_capability_failure_recoverable_witness :
    (c6st.conversation.current_placeholder_id = some 11 ∧
      c6st.placeholders.find? (fun q => q.id == 11) = some (mkPlaceholder 11 1 .text false)) ∧
    process_user_message (fun _ => []) (.failure (("timeout").toList)) (("hi").toList) c6st =
      (retryMsg (("timeout").toList), some (mkPlaceholder 11 1 .text false), c6st) :=
  ⟨⟨rfl, by decide⟩,
    (c6_capability_failure_recoverable (fun _ => []) (("timeout").toList) (("hi").toList)
      c6st 11 (mkPlaceholder 11 1 .text false) rfl (by decide)).1⟩

/-- Claim C6, counterexample to the claim as stated: on a concrete capability
failure the stored transcript is left exactly as it was — the turn does not
append an assistant retry message (nor any message) to it; the retry text is
only returned as the turn's response. -/
theorem c6_counterexample :
    (process_user_message (fun _ => []) (.failure (("timeout").toList)) (("hi").toList)
        c6st).2.2.conversation.history = c6st.conversation.history ∧
    (process_user_message (fun _ => []) (.failure (("timeout").toList)) (("hi").toList)
        c6st).2.2.conversation.history ≠
      c6st.conversation.history ++ [(MessageRole.ai, retryMsg (("timeout").toList))] := by
  exact ⟨by decide, by decide⟩

theorem replacerContext_eq_window (t : List Char) (s e : Nat) :
    replacerContext t s e = contextWindow t s e 30 := rfl

theorem bracketSubGo_contexts (full : List Char) :
    ∀ (fuel : Nat) (cs : List Char), cs.length ≤ fuel → ∀ i,
      ((bracketSubGo full fuel i cs).2).map (fun e => e.context) =
        (bracketScanGo fuel i cs).map
          (fun m => contextWindow full m.mstart m.mstop 30) := by
  intro fuel
  induction fuel with
  | zero =>
    intro cs h i
    have : cs = [] := List.eq_nil_of_length_eq_zero (Nat.le_zero.mp h)
    subst this
    rfl
  | succ fuel ih =>
    intro cs h i
    cases cs with
    | nil => rfl
    | cons c rest =>
      simp only [bracketSubGo, bracketScanGo]
      cases hm : matchBracketAt (c :: rest) with
      | some pr =>
        obtain ⟨body, rest3⟩ := pr
        have hlt := matchBracketAt_some_length hm
        simp only [List.length_cons] at h hlt
        dsimp only
        rw [List.map_cons, List.map_cons, ih rest3 (by omega) (i + body.length + 2)]
        rfl
      | none =>
        simp only [List.length_cons] at h
        dsimp only
        exact ih rest (by omega) (i + 1)

theorem blankSubGo_contexts (full : List Char) :
    ∀ (fuel : Nat) (cs : List Char), cs.length ≤ fuel → ∀ i counter,
      ((blankSubGo full fuel i counter cs).2.1).map (fun e => e.context) =
        (blankScanGo fuel i cs).map
          (fun m => contextWindow full m.mstart m.mstop 30) := by
  intro fuel
  induction fuel with
  | zero =>
    intro cs h i counter
    have : cs = [] := List.eq_nil_of_length_eq_zero (Nat.le_zero.mp h)
    subst this
    rfl
  | succ fuel ih =>
    intro cs h i counter
    cases cs with
    | nil => rfl
    | cons c rest =>
      simp only [blankSubGo, blankScanGo]
      cases hm : matchBlankAt (c :: rest) with
      | some pr =>
        obtain ⟨us, rest3⟩ := pr
        have hlt := matchBlankAt_some_length hm
        simp only [List.length_cons] at h hlt
        dsimp only
        rw [List.map_cons, List.map_cons,
          ih rest3 (by omega) (i + us.length + 2) (counter + 1)]
        rfl
      | none =>
        simp only [List.length_cons] at h
        dsimp only
        exact ih rest (by omega) (i + 1) counter

/-- Claim C4 (amended): every extracted placeholder's recorded context is a
30-character window of surrounding text on each side of the match, clamped to
the paragraph bounds — for bracket markers as well as blank markers (not 100
for brackets).  Bracket windows are taken around the match span in the
reconstructed paragraph text; blank windows are sliced from the reconstructed
text at the span the match has in the bracket-rewritten text. -/
theorem c4_context_window_30 :
    ∀ (runs : List (List Char)) (counter : Nat),
      ((processParagraph counter runs).2.1).map (fun e => e.context) =
        (bracketScan 0 runs.join).map
          (fun m => contextWindow runs.join m.mstart m.mstop 30) ++
        (blankScan 0 (bracketSubGo runs.join runs.join.length 0 runs.join).1).map
          (fun m => contextWindow runs.join m.mstart m.mstop 30) := by
  intro runs counter
  unfold processParagraph bracketScan blankScan
  dsimp only
  rw [List.map_append,
    bracketSubGo_contexts runs.join runs.join.length runs.join le_rfl 0,
    blankSubGo_contexts runs.join
      (bracketSubGo runs.join runs.join.length 0 runs.join).1.length
      (bracketSubGo runs.join runs.join.length 0 runs.join).1 le_rfl 0 counter]

/-- Claim C4, counterexample to the claim as stated: for a bracket marker with
40 characters of text on each side, the recorded context is the 30-character
window, not the 100-character window the claim asserts for bracket markers. -/
theorem c4_counterexample :
    ((processParagraph 1 [c4text]).2.1).map (fun e => e.context) ≠
      (bracketScan 0 c4text).map
        (fun m => contextWindow c4text m.mstart m.mstop 100) ∧
    ((processParagraph 1 [c4text]).2.1).map (fun e => e.context) =
      (bracketScan 0 c4text).map
        (fun m => contextWindow c4text m.mstart m.mstop 30) := by
  exact ⟨by decide, by decide⟩

theorem processParagraph_entry_count (counter : Nat) (runs : List (List Char)) :
    (processParagraph counter runs).2.1.length = paragraphMatchCount runs := by
  have hb := congrArg List.length
    (bracketSubGo_contexts runs.join runs.join.length runs.join le_rfl 0)
  have hl := congrArg List.length
    (blankSubGo_contexts runs.join
      (bracketSubGo runs.join runs.join.length 0 runs.join).1.length
      (bracketSubGo runs.join runs.join.length 0 runs.join).1 le_rfl 0 counter)
  simp only [List.length_map] at hb hl
  unfold processParagraph paragraphMatchCount bracketScan blankScan
  dsimp only
  rw [List.length_append, hb, hl]

/-- Claim C1 (amended): the extracted placeholder list is returned without
deduplication — it has exactly one entry per marker match, in scan order, so
its length is the total number of bracket and blank matches over all
paragraphs (which can exceed the number of distinct stable names, and a
stable name can even be empty when a bracket body strips to nothing). -/
theorem c1_extraction_one_entry_per_match :
    ∀ (paras : List (List (List Char))),
      ((convert_custom_placeholders_to_jinja paras).2).length =
        (paras.map paragraphMatchCount).sum := by
  intro paras
  unfold convert_custom_placeholders_to_jinja
  dsimp only
  suffices h : ∀ counter, ((convertGo counter paras).2.1).length =
      (paras.map paragraphMatchCount).sum from h 1
  induction paras with
  | nil => intro c; rfl
  | cons para rest ih =>
    intro c
    simp only [convertGo]
    simp only [List.map_cons, List.sum_cons, List.length_append]
    rw [processParagraph_entry_count, ih]

/-- Claim C1, counterexample to the claim as stated: a document whose first
paragraph repeats the marker `[Name]` and whose second paragraph holds the
all-space marker `[ ]` yields three extracted entries with stable names
`Name`, `Name`, `""` — the list is not deduplicated (3 entries against 2
distinct stable names) and contains an empty stable name. -/
theorem c1_counterexample :
    ((convert_custom_placeholders_to_jinja c1doc).2).map (fun e => e.jinja_name) =
      [("Name").toList, ("Name").toList, []] ∧
    ((convert_custom_placeholders_to_jinja c1doc).2).length = 3 ∧
    (dedupKeepFirst
      (((convert_custom_placeholders_to_jinja c1doc).2).map (fun e => e.jinja_name))).length =
      2 ∧
    ¬ (∀ e ∈ (convert_custom_placeholders_to_jinja c1doc).2, e.jinja_name ≠ []) := by
  refine ⟨by decide, by decide, by decide, by decide⟩
